import Mathlib

set_option maxRecDepth 100000

attribute [local semireducible] Rat.add Rat.mul Rat.inv Rat.sub Rat.ofScientific

/-!
Verification development for the celestial-analysis repository.

The repository has two Python source files:
* `src/app.py` — loads a scraped Messier-catalog CSV, classifies each row's
  free-text object type into a two-level Korean-labelled taxonomy, parses
  distance/magnitude strings into numbers, and renders grouped statistics.
* `src/celestial_scraper.py` — the collector; its `parse_size` cleaning helper
  is modelled here as well.

This file shallowly embeds the data model and the functions the claims touch.
Rationals (`ℚ`) stand in for Python floats; `Option` encodes NaN/None
("absent").  Category and sub-category labels are kept as the Korean string
literals the code actually returns; the spec's English names correspond as
성단=Cluster, 은하=Galaxy, 성운=Nebula, 기타=Other, and e.g.
막대나선은하="barred spiral galaxy", 산광성운="diffuse nebula".
-/

/-! ## Generic string/list utilities -/

/-- Tests whether `pat` occurs at the head of the second list
(character-by-character equality). -/
def headMatch : List Char → List Char → Bool
  | [], _ => true
  | _ :: _, [] => false
  | p :: ps, h :: hs => p == h && headMatch ps hs

/-- Substring containment on character lists: Python's `pat in hay`. -/
def containsSub (pat : List Char) : List Char → Bool
  | [] => pat.isEmpty
  | h :: hs => headMatch pat (h :: hs) || containsSub pat hs

/-- Lowercase a Python string, as `str.lower()` does for ASCII letters
(non-ASCII case mapping is not needed by any claim: the pattern table and all
labels are ASCII or caseless Hangul). -/
def pyLower (s : String) : List Char := s.data.map Char.toLower

/-- Python's `p in t` substring test, `p` a pattern literal, `t` a char list. -/
def pyContains (p : String) (t : List Char) : Bool := containsSub p.data t

/-- Splits a character list at every character satisfying `p`, keeping empty
pieces — the behaviour of `re.split` with a single-character class such as
`[–-]` or `[xX]`. -/
def splitOnPred (p : Char → Bool) : List Char → List (List Char)
  | [] => [[]]
  | c :: rest =>
    if p c then [] :: splitOnPred p rest
    else
      match splitOnPred p rest with
      | [] => [[c]]
      | h :: t => (c :: h) :: t

/-- Splits a character list at the first character satisfying `p`; `none` when
no such character occurs. -/
def splitFirst (p : Char → Bool) : List Char → Option (List Char × List Char)
  | [] => none
  | c :: rest =>
    if p c then some ([], rest)
    else (splitFirst p rest).map (fun pr => (c :: pr.1, pr.2))

/-- Removes duplicates keeping the first occurrence of each element
(the order in which pandas first encounters each key). -/
def dedupFirst : List String → List String
  | [] => []
  | a :: l => a :: (dedupFirst l).filter (fun b => b ≠ a)

/-- Lexicographic (code-point) order on character lists: Python's string `≤`,
the order pandas uses to sort group keys. -/
def charListLe : List Char → List Char → Bool
  | [], _ => true
  | _ :: _, [] => false
  | a :: as, b :: bs => if a < b then true else if b < a then false else charListLe as bs

/-- String comparison by code points (Python `s <= t`). -/
def strLeB (a b : String) : Bool := charListLe a.data b.data

/-- Inserts a string into an already sorted list (ascending `strLeB`). -/
def insertSorted (a : String) : List String → List String
  | [] => [a]
  | b :: bs => if strLeB a b then a :: b :: bs else b :: insertSorted a bs

/-- Insertion sort of strings in ascending code-point order. -/
def sortStrings (l : List String) : List String := l.foldr insertSorted []

/-! ## Rational-number utilities (Python float stand-ins) -/

/-- Arithmetic mean of a list of rationals (`np.mean`); callers guard against
the empty list. -/
def qmean (l : List ℚ) : ℚ := l.sum / l.length

/-- Division as pandas/numpy perform it on floats: dividing by zero produces
`inf`/`NaN`, which the embedding records as an absent value. -/
def pdiv (a b : ℚ) : Option ℚ := if b = 0 then none else some (a / b)

/-- Rounds to the nearest integer, halves to the even neighbour — the rounding
mode numpy's `round` uses. -/
def roundHalfEven (q : ℚ) : ℤ :=
  let f := ⌊q⌋
  if q - f < 1/2 then f
  else if q - f > 1/2 then f + 1
  else if f % 2 = 0 then f else f + 1

/-- Pandas' `.round(2)`: round to two decimal places.  Modelled exactly on ℚ;
the binary-float representation artifacts of `float64` rounding are outside
the embedding. -/
def round2 (q : ℚ) : ℚ := (roundHalfEven (q * 100) : ℚ) / 100

/-- Minimum of a list of rationals, `none` on the empty list (pandas `.min()`
after NaN values have been dropped). -/
def listMinQ : List ℚ → Option ℚ
  | [] => none
  | a :: l =>
    some (match listMinQ l with
      | none => a
      | some b => min a b)

/-- Maximum of a list of rationals, `none` on the empty list. -/
def listMaxQ : List ℚ → Option ℚ
  | [] => none
  | a :: l =>
    some (match listMaxQ l with
      | none => a
      | some b => max a b)

/-- First entry attaining the minimal value (pandas `Series.idxmin`: the first
index of the minimum, scanning in index order).  Implemented as a fold that
keeps the earlier entry on ties. -/
def idxminFold : List (String × ℚ) → Option (String × ℚ)
  | [] => none
  | (k, v) :: rest =>
    match idxminFold rest with
    | none => some (k, v)
    | some (k', v') => if v ≤ v' then some (k, v) else some (k', v')

/-- First entry attaining the maximal value (pandas `Series.idxmax`). -/
def idxmaxFold : List (String × ℚ) → Option (String × ℚ)
  | [] => none
  | (k, v) :: rest =>
    match idxmaxFold rest with
    | none => some (k, v)
    | some (k', v') => if v' ≤ v then some (k, v) else some (k', v')

/-! ## Python `float()` model -/

/-- Numeric value of a list of decimal digits (most significant first). -/
def digitsVal (cs : List Char) : ℕ := cs.foldl (fun n c => 10 * n + (c.toNat - 48)) 0

/-- Parses a mantissa consisting only of digits and at most one decimal point:
`digits`, `digits.digits`, `digits.` or `.digits`, with at least one digit.
This is exactly the set of strings made of `[0-9.]` that Python's `float()`
accepts, and the shape `float()` requires of a mantissa in general. -/
def parseMant (cs : List Char) : Option ℚ :=
  match splitOnPred (fun c => c == '.') cs with
  | [a] =>
    if !a.isEmpty && a.all Char.isDigit then some (digitsVal a) else none
  | [a, b] =>
    if (!a.isEmpty || !b.isEmpty) && a.all Char.isDigit && b.all Char.isDigit then
      some ((digitsVal a : ℚ) + (digitsVal b : ℚ) / (10 : ℚ) ^ b.length)
    else none
  | _ => none

/-- Parses an exponent part: optional sign followed by at least one digit. -/
def parseExp (cs : List Char) : Option ℤ :=
  match cs with
  | '+' :: ds => if !ds.isEmpty && ds.all Char.isDigit then some (digitsVal ds) else none
  | '-' :: ds => if !ds.isEmpty && ds.all Char.isDigit then some (-(digitsVal ds : ℤ)) else none
  | ds => if !ds.isEmpty && ds.all Char.isDigit then some (digitsVal ds) else none

/-- Parses a mantissa with an optional `e`/`E` exponent. -/
def parseMantExp (cs : List Char) : Option ℚ :=
  match splitFirst (fun c => c == 'e' || c == 'E') cs with
  | none => parseMant cs
  | some (m, e) =>
    match parseMant m, parseExp e with
    | some v, some n => some (v * (10 : ℚ) ^ n)
    | _, _ => none

/-- Shallow embedding of Python's builtin `float(str)`: surrounding whitespace
is ignored, then an optional sign, a mantissa and an optional exponent.
The spellings `inf`/`infinity`/`nan` and digit-group underscores are not
representable in ℚ and are treated as parse failures; no string in scope of
the claims uses them. -/
def python_float_chars (cs : List Char) : Option ℚ :=
  let t := ((cs.dropWhile Char.isWhitespace).reverse.dropWhile Char.isWhitespace).reverse
  match t with
  | '+' :: r => parseMantExp r
  | '-' :: r => (parseMantExp r).map (fun q => -q)
  | r => parseMantExp r

/-- Python `float()` on a `String`. -/
def python_float (s : String) : Option ℚ := python_float_chars s.data

/-- Pandas `pd.to_numeric(·, errors='coerce')` applied to one optional string
cell: a missing cell stays missing, an unparseable string becomes NaN
(absent), otherwise the parsed float. -/
def to_numeric_coerce (m : Option String) : Option ℚ := m.bind python_float

/-! ## Object-type classifier (`categorize_object`, src/app.py lines 29–63) -/

/-- Classifier from `src/app.py`: maps the optional free-text `object_type`
cell to a `(category, sub_category)` pair of Korean labels by testing the
lowercased text against a hand-ordered chain of substring patterns; the first
match wins, and missing or unmatched input yields `("기타", "기타")`
("Other"/"Other"). -/
def categorize_object (obj_type : Option String) : String × String :=
  match obj_type with
  | none => ("기타", "기타")
  | some s =>
    let t := pyLower s
    if pyContains "globular cluster" t then ("성단", "구상성단")
    else if pyContains "open cluster" t then ("성단", "산개성단")
    else if pyContains "barred spiral" t then ("은하", "막대나선은하")
    else if pyContains "spiral galaxy" t then ("은하", "나선은하")
    else if pyContains "elliptical galaxy" t || pyContains "dwarf elliptical" t then ("은하", "타원은하")
    else if pyContains "lenticular galaxy" t then ("은하", "렌즈형은하")
    else if pyContains "starburst galaxy" t then ("은하", "폭발적항성생성은하")
    else if pyContains "planetary nebula" t then ("성운", "행성상성운")
    else if pyContains "h ii region" t || pyContains "nebula" t then ("성운", "발광성운")
    else if pyContains "supernova" t || pyContains "nova" t then ("성운", "초신성잔해")
    else if pyContains "diffuse nebula" t then ("성운", "산광성운")
    else if pyContains "asterism" t then ("기타", "성군")
    else if pyContains "milky way" t || pyContains "star cloud" t then ("기타", "은하수영역")
    else if pyContains "double" t then ("기타", "이중성")
    else ("기타", "기타")

/-- Ordered pattern table of the classifier: each entry is a list of
alternative substring patterns together with the resulting
`(category, sub_category)` pair, in the precedence order of the `if`-chain. -/
def pattern_table : List (List String × (String × String)) :=
  [ (["globular cluster"], ("성단", "구상성단")),
    (["open cluster"], ("성단", "산개성단")),
    (["barred spiral"], ("은하", "막대나선은하")),
    (["spiral galaxy"], ("은하", "나선은하")),
    (["elliptical galaxy", "dwarf elliptical"], ("은하", "타원은하")),
    (["lenticular galaxy"], ("은하", "렌즈형은하")),
    (["starburst galaxy"], ("은하", "폭발적항성생성은하")),
    (["planetary nebula"], ("성운", "행성상성운")),
    (["h ii region", "nebula"], ("성운", "발광성운")),
    (["supernova", "nova"], ("성운", "초신성잔해")),
    (["diffuse nebula"], ("성운", "산광성운")),
    (["asterism"], ("기타", "성군")),
    (["milky way", "star cloud"], ("기타", "은하수영역")),
    (["double"], ("기타", "이중성")) ]

/-- Disjunction of substring tests over a list of alternative patterns,
written so that on a one- or two-element literal list it unfolds to exactly
the Boolean conditions of the classifier's `if`-chain. -/
def anyContains : List String → List Char → Bool
  | [], _ => false
  | [p], t => pyContains p t
  | p :: ps, t => pyContains p t || anyContains ps t

/-- First-match evaluation of an ordered pattern table against a lowercased
input: the result of the first entry one of whose patterns is a substring,
defaulting to `("기타", "기타")`. -/
def first_match : List (List String × (String × String)) → List Char → String × String
  | [], _ => ("기타", "기타")
  | (pats, res) :: rest, t =>
    if anyContains pats t then res else first_match rest t

/-- Every pattern occurring in the classifier's table. -/
def allPatterns : List String := (pattern_table.map (·.1)).flatten

/-- Tests that no pattern of the table matches the lowercased input. -/
def no_pattern_matches (s : String) : Bool :=
  allPatterns.all (fun p => !(pyContains p (pyLower s)))

/-- Every `(category, sub_category)` pair the classifier can return: the
fourteen table results plus the default. -/
def resultPairs : List (String × String) :=
  pattern_table.map (·.2) ++ [("기타", "기타")]

/-- Sub-category labels the classifier actually produces.  The label
`"산광성운"` ("diffuse nebula") is absent: its branch sits below the
`nebula` branch, whose pattern is a substring of `"diffuse nebula"`. -/
def producibleSubCategories : List String :=
  ["기타", "구상성단", "산개성단", "막대나선은하", "나선은하", "타원은하",
   "렌즈형은하", "폭발적항성생성은하", "행성상성운", "발광성운", "초신성잔해",
   "성군", "은하수영역", "이중성"]

/-! ## Numeric field parsers (src/app.py lines 71–88, src/celestial_scraper.py lines 298–313) -/

/-- Range-dash test: en-dash or hyphen, the class `[–-]` of `parse_distance`. -/
def isDash (c : Char) : Bool := c == '–' || c == '-'

/-- Python `re.sub(r'[^\d.]', '', ·)`: keep only decimal digits and dots. -/
def stripNonNum (cs : List Char) : List Char :=
  cs.filter (fun c => c.isDigit || c == '.')

/-- Body of the `try` block in `parse_distance`'s range branch: parse every
(already stripped, nonempty) part as a float and average; the whole result is
absent when no parts remain, and also absent when *any* part fails to parse,
because the raised exception aborts the entire list comprehension. -/
def mean_of_parses (stripped : List (List Char)) : Option ℚ :=
  match stripped.mapM parseMant with
  | some nums => if nums.isEmpty then none else some (qmean nums)
  | none => none

/-- Distance parser from `src/app.py`: drop `,` and `~`; when a dash is
present, split on dashes, strip each part to digits and dots, drop parts that
strip to nothing, and feed the rest to `mean_of_parses`; with no dash, strip
and parse the whole string, absent on failure. -/
def parse_distance (dist : Option String) : Option ℚ :=
  match dist with
  | none => none
  | some s =>
    let cs := s.data.filter (fun c => !(c == ',' || c == '~'))
    if cs.any isDash then
      mean_of_parses (((splitOnPred isDash cs).map stripNonNum).filter (fun p => !p.isEmpty))
    else parseMant (stripNonNum cs)

/-- Distance parsing as claim C4 words it: after dropping `,` and `~`, split
on dashes, strip and parse each part, and return the arithmetic mean of the
*successfully parsed* parts — a part that fails to parse is merely skipped. -/
def parse_distance_claim (dist : Option String) : Option ℚ :=
  match dist with
  | none => none
  | some s =>
    let cs := s.data.filter (fun c => !(c == ',' || c == '~'))
    if cs.any isDash then
      let nums := ((splitOnPred isDash cs).map stripNonNum).filterMap parseMant
      if nums.isEmpty then none else some (qmean nums)
    else parseMant (stripNonNum cs)

/-- Distance parsing as amended: parts stripping to nothing are discarded; if
every remaining part parses, the result is their mean (absent when none
remain); if any remaining part fails to parse — e.g. strips to several
decimal points — the whole field is absent. -/
def parse_distance_amended (dist : Option String) : Option ℚ :=
  match dist with
  | none => none
  | some s =>
    let cs := s.data.filter (fun c => !(c == ',' || c == '~'))
    if cs.any isDash then
      mean_of_parses (((splitOnPred isDash cs).map stripNonNum).filter (fun p => !p.isEmpty))
    else parseMant (stripNonNum cs)

/-- Case-insensitive `x` test used by `parse_size` (`'x' in s.lower()`). -/
def hasLowerX (s : String) : Bool := (pyLower s).any (fun c => c == 'x')

/-- Size parser from `src/celestial_scraper.py` (`clean_data`): a string
containing `x`/`X` is split on every such separator and the floats of the
*first two* parts are averaged (absent if either fails); otherwise the whole
string is parsed as a float, absent on failure. -/
def parse_size (s : Option String) : Option ℚ :=
  match s with
  | none => none
  | some s =>
    if hasLowerX s then
      match splitOnPred (fun c => c == 'x' || c == 'X') s.data with
      | p0 :: p1 :: _ =>
        match python_float_chars p0, python_float_chars p1 with
        | some a, some b => some ((a + b) / 2)
        | _, _ => none
      | _ => none
    else python_float s

/-- Size parsing as claim C9 words it: exactly the two-part form `A x B`
averages `A` and `B`; a single numeric string parses directly; anything else
— including strings with two or more separators — is absent. -/
def parse_size_claim (s : Option String) : Option ℚ :=
  match s with
  | none => none
  | some s =>
    if hasLowerX s then
      match splitOnPred (fun c => c == 'x' || c == 'X') s.data with
      | [p0, p1] =>
        match python_float_chars p0, python_float_chars p1 with
        | some a, some b => some ((a + b) / 2)
        | _, _ => none
      | _ => none
    else python_float s

/-- Size parsing as amended: a string containing a case-insensitive `x` is
split at every `x`/`X` and the floats of the first two parts are averaged
(absent if either of those two fails to parse); a string without a separator
parses as a plain float; anything else is absent. -/
def parse_size_amended (s : Option String) : Option ℚ :=
  match s with
  | none => none
  | some s =>
    if hasLowerX s then
      match splitOnPred (fun c => c == 'x' || c == 'X') s.data with
      | p0 :: p1 :: _ =>
        match python_float_chars p0, python_float_chars p1 with
        | some a, some b => some ((a + b) / 2)
        | _, _ => none
      | _ => none
    else python_float s

/-! ## Table model and the reporting pipeline (src/app.py) -/

/-- Raw CSV row as the Normalizer receives it: the string fields of
`messier_fixed.csv` that the claims touch.  A `none` cell is a pandas NaN. -/
structure RawRow where
  messier : Option String
  object_type : Option String
  magnitude : Option String
  distance : Option String
  constellation : Option String
deriving DecidableEq

/-- Enriched row after `load_and_process_data`: the raw fields plus the
derived `category`, `sub_category`, `magnitude_num` and `distance_kly`
columns. -/
structure Row where
  messier : Option String
  object_type : Option String
  category : String
  sub_category : String
  magnitude_num : Option ℚ
  distance_kly : Option ℚ
  constellation : Option String
deriving DecidableEq

/-- Normalization step of `load_and_process_data` (src/app.py lines 66–90):
per-row application of the classifier, `pd.to_numeric(·, errors='coerce')`
on `magnitude`, and `parse_distance` on `distance`.  Purely a `map`: no row
is dropped or merged. -/
def load_and_process_data (raw : List RawRow) : List Row :=
  raw.map (fun r =>
    let cs := categorize_object r.object_type
    { messier := r.messier
      object_type := r.object_type
      category := cs.1
      sub_category := cs.2
      magnitude_num := to_numeric_coerce r.magnitude
      distance_kly := parse_distance r.distance
      constellation := r.constellation })

/-- Sidebar filter (src/app.py lines 110–113): any selection other than
`"전체"` ("All") keeps the rows of the selected category; `"전체"` passes the
table through. -/
def filtered_df (df : List Row) (sel : String) : List Row :=
  if sel == "전체" then df else df.filter (fun r => r.category == sel)

/-- Group keys of `df.groupby('category')`: the distinct categories sorted in
ascending code-point order (pandas sorts group keys; Korean labels compare by
Unicode code point, giving 기타 < 성단 < 성운 < 은하). -/
def groupKeys (df : List Row) : List String :=
  sortStrings (dedupFirst (df.map (·.category)))

/-- Mean of an optional-number column as pandas computes it: NaN entries are
skipped, and a group with no valid value has NaN (absent) mean. -/
def group_mean (vals : List (Option ℚ)) : Option ℚ :=
  let vs := vals.filterMap id
  if vs.isEmpty then none else some (qmean vs)

/-- Unrounded mean magnitude of one category's rows. -/
def group_mean_mag (df : List Row) (k : String) : Option ℚ :=
  group_mean ((df.filter (fun r => r.category == k)).map (·.magnitude_num))

/-- Mean column `'평균'` of `mag_stats` (src/app.py line 250): per sorted
category key, the mean of `magnitude_num` rounded to two decimals.  The
other aggregate columns (median, std, min, max) are displayed only and no
claim references them. -/
def mag_stats (df : List Row) : List (String × Option ℚ) :=
  (groupKeys df).map (fun k => (k, (group_mean_mag df k).map round2))

/-- Entries of the `mag_stats` mean column that carry a value — the series
over which `idxmin`/`idxmax` operate (NaN entries are skipped). -/
def definedStats (df : List Row) : List (String × ℚ) :=
  (mag_stats df).filterMap (fun p => p.2.map (fun v => (p.1, v)))

/-- `brightest_cat = mag_stats['평균'].idxmin()` (src/app.py line 257): the
first category, in sorted key order, attaining the minimal rounded mean
magnitude; `none` models the all-NaN error case. -/
def brightest_cat (df : List Row) : Option String :=
  (idxminFold (definedStats df)).map (·.1)

/-- `dimmest_cat = mag_stats['평균'].idxmax()` (src/app.py line 258). -/
def dimmest_cat (df : List Row) : Option String :=
  (idxmaxFold (definedStats df)).map (·.1)

/-- Stable descending-by-count insertion, keeping earlier entries on ties. -/
def insertByCountDesc (p : String × ℕ) : List (String × ℕ) → List (String × ℕ)
  | [] => [p]
  | q :: qs => if q.2 < p.2 then p :: q :: qs else q :: insertByCountDesc p qs

/-- Pandas `Series.value_counts()`: occurrence counts of each distinct value,
ordered by descending count with ties in first-encounter order. -/
def value_counts (keys : List String) : List (String × ℕ) :=
  ((dedupFirst keys).map (fun k => (k, keys.count k))).foldl
    (fun acc p => insertByCountDesc p acc) []

/-- `cat_counts = df['category'].value_counts()` (src/app.py line 409). -/
def cat_counts (df : List Row) : List (String × ℕ) :=
  value_counts (df.map (·.category))

/-- One row of the `summary` table (src/app.py lines 436–441): per category,
the count of non-null `messier` cells and the two-decimal-rounded means of
`magnitude_num` and `distance_kly`. -/
structure SRow where
  cat : String
  cnt : ℕ
  mmag : Option ℚ
  mdist : Option ℚ
deriving DecidableEq

/-- The `summary` groupby table (src/app.py lines 436–441): group keys in
sorted order; per group the `messier` count and rounded means of magnitude
and distance.  The magnitude std column is displayed only. -/
def summary (df : List Row) : List SRow :=
  (groupKeys df).map (fun k =>
    let g := df.filter (fun r => r.category == k)
    { cat := k
      cnt := (g.filterMap (·.messier)).length
      mmag := (group_mean (g.map (·.magnitude_num))).map round2
      mdist := (group_mean (g.map (·.distance_kly))).map round2 })

/-- Radar feature `개수_norm` (src/app.py line 448): each category's count
divided by the maximum count.  When every count is zero the division is 0/0,
a NaN, recorded as absent. -/
def radar_counts (df : List Row) : List (String × Option ℚ) :=
  let rows := summary df
  let cmax : ℕ := (rows.map (·.cnt)).foldr max 0
  rows.map (fun r => (r.cat, pdiv (r.cnt : ℚ) (cmax : ℚ)))

/-- Radar feature `밝기_norm` (src/app.py line 449):
`1 - (mean - min) / (max - min + 0.01)` over the rounded mean-magnitude
column; NaN means propagate, and if no category has a valid mean the min and
max are themselves NaN so every entry is NaN. -/
def radar_bright (df : List Row) : List (String × Option ℚ) :=
  let rows := summary df
  let ms := (rows.map (·.mmag)).filterMap id
  match listMinQ ms, listMaxQ ms with
  | some lo, some hi =>
    rows.map (fun r => (r.cat, r.mmag.map (fun m => 1 - (m - lo) / (hi - lo + 1/100))))
  | _, _ => rows.map (fun r => (r.cat, none))

/-- Radar feature `거리_norm` (src/app.py line 450):
`mean_dist.fillna(0) / (max + 0.01)` over the rounded mean-distance column;
when every mean distance is NaN the maximum is NaN and every entry is NaN. -/
def radar_dist (df : List Row) : List (String × Option ℚ) :=
  let rows := summary df
  let ds := (rows.map (·.mdist)).filterMap id
  match listMaxQ ds with
  | some dmax => rows.map (fun r => (r.cat, pdiv (r.mdist.getD 0) (dmax + 1/100)))
  | none => rows.map (fun r => (r.cat, none))

/-- Value stored under a key in an association list (first match). -/
def lookupKey (l : List (String × Option ℚ)) (k : String) : Option (Option ℚ) :=
  (l.find? (fun p => p.1 == k)).map (·.2)

/-- Everything the app derives that depends — or that the spec says should
depend — on the sidebar selection: the displayed raw-data table and the
sidebar count are taken from `filtered_df` (src/app.py lines 118 and 198),
while `mag_stats`, `cat_counts` and `summary` are computed from the full
`df` (lines 250, 409 and 436). -/
structure AppView where
  raw_table : List Row
  selected_count : ℕ
  magStats : List (String × Option ℚ)
  catCounts : List (String × ℕ)
  summaryRows : List SRow
deriving DecidableEq

/-- The app's derived tables for a given table and sidebar selection,
assembled exactly as `src/app.py` does. -/
def app_view (df : List Row) (sel : String) : AppView :=
  { raw_table := filtered_df df sel
    selected_count := (filtered_df df sel).length
    magStats := mag_stats df
    catCounts := cat_counts df
    summaryRows := summary df }

/-- Derived tables as claim C2 describes them: every tabulation computed over
the rows selected by the filter. -/
def app_view_claim (df : List Row) (sel : String) : AppView :=
  { raw_table := filtered_df df sel
    selected_count := (filtered_df df sel).length
    magStats := mag_stats (filtered_df df sel)
    catCounts := cat_counts (filtered_df df sel)
    summaryRows := summary (filtered_df df sel) }

/-! ## Concrete tables used by counterexamples and witnesses -/

/-- Two-row raw table: one globular cluster and one spiral galaxy. -/
def exRawTwo : List RawRow :=
  [ { messier := some "M13", object_type := some "Globular Cluster",
      magnitude := some "6.5", distance := some "25", constellation := some "Hercules" },
    { messier := some "M31", object_type := some "Spiral Galaxy",
      magnitude := some "3.4", distance := some "2,500", constellation := some "Andromeda" } ]

/-- Enrichment of `exRawTwo`. -/
def exDfTwo : List Row := load_and_process_data exRawTwo

/-- Two-row raw table whose two categories (성단 and 기타) have true mean
magnitudes 5.001 and 5.004, which both round to 5.0. -/
def exRawTie : List RawRow :=
  [ { messier := some "M13", object_type := some "Globular Cluster",
      magnitude := some "5.001", distance := some "25", constellation := none },
    { messier := some "M73", object_type := some "Asterism",
      magnitude := some "5.004", distance := some "2", constellation := none } ]

/-- Enrichment of `exRawTie`. -/
def exDfTie : List Row := load_and_process_data exRawTie

/-- Two-row raw table in which the 은하 (Galaxy) group has no valid
magnitude: its only row's magnitude cell is unparseable. -/
def exRawNoMag : List RawRow :=
  [ { messier := some "M13", object_type := some "Globular Cluster",
      magnitude := some "6.5", distance := some "25", constellation := none },
    { messier := some "M31", object_type := some "Spiral Galaxy",
      magnitude := some "bad", distance := some "2,500", constellation := none } ]

/-- Enrichment of `exRawNoMag`. -/
def exDfNoMag : List Row := load_and_process_data exRawNoMag


/-! ## Helper lemmas: substring containment -/

/-- A match of `a ++ b` at the head of `h` yields an occurrence of `b` in `h`. -/
theorem headMatch_append_contains (a b : List Char) :
    ∀ h : List Char, headMatch (a ++ b) h = true → containsSub b h = true := by
  induction a with
  | nil =>
    intro h hm
    cases h with
    | nil =>
      cases b with
      | nil => rfl
      | cons x xs => simp [headMatch] at hm
    | cons c cs =>
      simp only [List.nil_append] at hm
      simp [containsSub, hm]
  | cons p ps ih =>
    intro h hm
    cases h with
    | nil => simp [headMatch] at hm
    | cons c cs =>
      simp only [List.cons_append, headMatch, Bool.and_eq_true] at hm
      have hrec := ih cs hm.2
      simp [containsSub, hrec]

/-- Substring containment is monotone in suffixes of the pattern: if `a ++ b`
occurs in `h` then so does `b`. -/
theorem containsSub_append (a b : List Char) :
    ∀ h : List Char, containsSub (a ++ b) h = true → containsSub b h = true := by
  intro h
  induction h with
  | nil =>
    intro hc
    cases a with
    | nil => exact hc
    | cons x xs => simp [containsSub] at hc
  | cons c cs ih =>
    intro hc
    simp only [containsSub, Bool.or_eq_true] at hc ⊢
    rcases hc with hm | hrec
    · have hcb := headMatch_append_contains a b (c :: cs) hm
      rw [containsSub] at hcb
      simpa [Bool.or_eq_true] using hcb
    · exact Or.inr (ih hrec)

/-! ## Helper lemmas: the classifier as first-match table lookup -/

/-- The `if`-chain of `categorize_object` is the first-match evaluation of
its ordered pattern table. -/
theorem categorize_object_eq_first_match (s : String) :
    categorize_object (some s) = first_match pattern_table (pyLower s) := rfl

/-- First-match evaluation always lands in the table's results or the
default pair. -/
theorem first_match_mem (tbl : List (List String × (String × String))) (t : List Char) :
    first_match tbl t ∈ tbl.map (·.2) ++ [("기타", "기타")] := by
  induction tbl with
  | nil => simp [first_match]
  | cons e rest ih =>
    obtain ⟨pats, res⟩ := e
    rw [first_match]
    cases hc : anyContains pats t
    · simpa using Or.inr (by simpa using ih)
    · simp

/-- The classifier only ever returns one of the fifteen pairs of its table
(the fourteen rule results plus the default). -/
theorem categorize_object_mem_resultPairs (s : String) :
    categorize_object (some s) ∈ resultPairs := by
  rw [categorize_object_eq_first_match]
  exact first_match_mem pattern_table (pyLower s)

/-- An input containing `"diffuse nebula"` also contains `"nebula"`. -/
theorem contains_nebula_of_contains_diffuse (t : List Char)
    (h : pyContains "diffuse nebula" t = true) : pyContains "nebula" t = true := by
  have hsplit : ("diffuse nebula").data = ("diffuse ").data ++ ("nebula").data := by decide
  unfold pyContains at h ⊢
  rw [hsplit] at h
  exact containsSub_append _ _ _ h

set_option maxHeartbeats 1000000 in
/-- Case analysis of the classifier's `if`-chain over abstract Boolean
condition values: whenever the diffuse-nebula test implies the nebula test
(as substring containment guarantees), the resulting sub-category is
producible — the `"산광성운"` branch is unreachable. -/
theorem ifChain_snd_mem (bG bO bB bS bE bD bL bT bP bH bN bSN bNV bDN bA bM bC bDbl : Bool)
    (himp : bDN = true → bN = true) :
    (if bG then ("성단", "구상성단")
     else if bO then ("성단", "산개성단")
     else if bB then ("은하", "막대나선은하")
     else if bS then ("은하", "나선은하")
     else if bE || bD then ("은하", "타원은하")
     else if bL then ("은하", "렌즈형은하")
     else if bT then ("은하", "폭발적항성생성은하")
     else if bP then ("성운", "행성상성운")
     else if bH || bN then ("성운", "발광성운")
     else if bSN || bNV then ("성운", "초신성잔해")
     else if bDN then ("성운", "산광성운")
     else if bA then ("기타", "성군")
     else if bM || bC then ("기타", "은하수영역")
     else if bDbl then ("기타", "이중성")
     else ("기타", "기타")).2 ∈ producibleSubCategories := by
  cases bG with
  | true => simp [producibleSubCategories]
  | false =>
    cases bO with
    | true => simp [producibleSubCategories]
    | false =>
      cases bB with
      | true => simp [producibleSubCategories]
      | false =>
        cases bS with
        | true => simp [producibleSubCategories]
        | false =>
          cases bE with
          | true => simp [producibleSubCategories]
          | false =>
            cases bD with
            | true => simp [producibleSubCategories]
            | false =>
              cases bL with
              | true => simp [producibleSubCategories]
              | false =>
                cases bT with
                | true => simp [producibleSubCategories]
                | false =>
                  cases bP with
                  | true => simp [producibleSubCategories]
                  | false =>
                    cases bH with
                    | true => simp [producibleSubCategories]
                    | false =>
                      cases bN with
                      | true => simp [producibleSubCategories]
                      | false =>
                        cases bSN with
                        | true => simp [producibleSubCategories]
                        | false =>
                          cases bNV with
                          | true => simp [producibleSubCategories]
                          | false =>
                            cases bDN with
                            | true => exact absurd (himp rfl) Bool.false_ne_true
                            | false =>
                              cases bA with
                              | true => simp [producibleSubCategories]
                              | false =>
                                cases bM with
                                | true => simp [producibleSubCategories]
                                | false =>
                                  cases bC with
                                  | true => simp [producibleSubCategories]
                                  | false =>
                                    cases bDbl with
                                    | true => simp [producibleSubCategories]
                                    | false =>
                                      simp [producibleSubCategories]

/-- Every sub-category the classifier returns is in the producible list —
in particular the `"산광성운"` ("diffuse nebula") label is never returned,
since any input containing `"diffuse nebula"` contains `"nebula"` and is
caught by the earlier emission-nebula rule. -/
theorem categorize_object_snd_mem (o : Option String) :
    (categorize_object o).2 ∈ producibleSubCategories := by
  cases o with
  | none => decide
  | some s =>
    simp only [categorize_object]
    exact ifChain_snd_mem _ _ _ _ _ _ _ _ _ _ _ _ _ _ _ _ _ _
      (contains_nebula_of_contains_diffuse (pyLower s))

/-! ## Helper lemmas: list minima, maxima and first-attaining entries -/

/-- The minimum is absent exactly on the empty list. -/
theorem listMinQ_eq_none (l : List ℚ) : listMinQ l = none ↔ l = [] := by
  cases l <;> simp [listMinQ]

/-- The maximum is absent exactly on the empty list. -/
theorem listMaxQ_eq_none (l : List ℚ) : listMaxQ l = none ↔ l = [] := by
  cases l <;> simp [listMaxQ]

/-- The list minimum bounds every member from below. -/
theorem listMinQ_le (l : List ℚ) : ∀ m, listMinQ l = some m → ∀ x ∈ l, m ≤ x := by
  induction l with
  | nil => intro m hm; simp [listMinQ] at hm
  | cons a t ih =>
    intro m hm x hx
    rw [listMinQ] at hm
    cases ht : listMinQ t with
    | none =>
      rw [ht] at hm
      have hta := (listMinQ_eq_none t).mp ht
      subst hta
      simp at hm hx
      subst hm; subst hx; exact le_refl _
    | some b =>
      rw [ht] at hm
      simp at hm
      subst hm
      rcases List.mem_cons.mp hx with hxa | hxt
      · subst hxa; exact min_le_left _ _
      · exact le_trans (min_le_right _ _) (ih b ht x hxt)

/-- The list maximum bounds every member from above. -/
theorem le_listMaxQ (l : List ℚ) : ∀ m, listMaxQ l = some m → ∀ x ∈ l, x ≤ m := by
  induction l with
  | nil => intro m hm; simp [listMaxQ] at hm
  | cons a t ih =>
    intro m hm x hx
    rw [listMaxQ] at hm
    cases ht : listMaxQ t with
    | none =>
      rw [ht] at hm
      have hta := (listMaxQ_eq_none t).mp ht
      subst hta
      simp at hm hx
      subst hm; subst hx; exact le_refl _
    | some b =>
      rw [ht] at hm
      simp at hm
      subst hm
      rcases List.mem_cons.mp hx with hxa | hxt
      · subst hxa; exact le_max_left _ _
      · exact le_trans (ih b ht x hxt) (le_max_right _ _)

/-- The fold keeping the first strictly-smaller entry is absent exactly on
the empty list. -/
theorem idxminFold_eq_none (l : List (String × ℚ)) : idxminFold l = none ↔ l = [] := by
  cases l with
  | nil => simp [idxminFold]
  | cons p t =>
    obtain ⟨k, v⟩ := p
    rw [idxminFold]
    cases idxminFold t <;> simp
    split <;> simp

/-- Dual of `idxminFold_eq_none`. -/
theorem idxmaxFold_eq_none (l : List (String × ℚ)) : idxmaxFold l = none ↔ l = [] := by
  cases l with
  | nil => simp [idxmaxFold]
  | cons p t =>
    obtain ⟨k, v⟩ := p
    rw [idxmaxFold]
    cases idxmaxFold t <;> simp
    split <;> simp

/-- The value component of `idxminFold` is the list minimum of the values. -/
theorem idxminFold_val (l : List (String × ℚ)) :
    ∀ k v, idxminFold l = some (k, v) → listMinQ (l.map Prod.snd) = some v := by
  induction l with
  | nil => intro k v h; simp [idxminFold] at h
  | cons p t ih =>
    intro k v h
    obtain ⟨k0, v0⟩ := p
    rw [idxminFold] at h
    cases ht : idxminFold t with
    | none =>
      rw [ht] at h
      have hta := (idxminFold_eq_none t).mp ht
      subst hta
      simp at h
      simp [listMinQ, h.2]
    | some p' =>
      obtain ⟨k', v'⟩ := p'
      rw [ht] at h
      have hmin := ih k' v' ht
      simp only [List.map_cons, listMinQ, hmin]
      by_cases hle : v0 ≤ v'
      · simp [hle] at h
        rw [min_eq_left hle]; exact congrArg some h.2
      · simp [hle] at h
        have hlt := lt_of_not_le hle
        rw [min_eq_right (le_of_lt hlt)]; exact congrArg some h.2

/-- The value component of `idxmaxFold` is the list maximum of the values. -/
theorem idxmaxFold_val (l : List (String × ℚ)) :
    ∀ k v, idxmaxFold l = some (k, v) → listMaxQ (l.map Prod.snd) = some v := by
  induction l with
  | nil => intro k v h; simp [idxmaxFold] at h
  | cons p t ih =>
    intro k v h
    obtain ⟨k0, v0⟩ := p
    rw [idxmaxFold] at h
    cases ht : idxmaxFold t with
    | none =>
      rw [ht] at h
      have hta := (idxmaxFold_eq_none t).mp ht
      subst hta
      simp at h
      simp [listMaxQ, h.2]
    | some p' =>
      obtain ⟨k', v'⟩ := p'
      rw [ht] at h
      have hmax := ih k' v' ht
      simp only [List.map_cons, listMaxQ, hmax]
      by_cases hle : v' ≤ v0
      · simp [hle] at h
        rw [max_eq_left hle]; exact congrArg some h.2
      · simp [hle] at h
        have hlt := lt_of_not_le hle
        rw [max_eq_right (le_of_lt hlt)]; exact congrArg some h.2

/-- Pandas `idxmin` characterized: when the values have minimum `m`, the fold
returns the *first* entry whose value equals `m`. -/
theorem idxminFold_eq_find (l : List (String × ℚ)) :
    ∀ m, listMinQ (l.map Prod.snd) = some m →
      idxminFold l = l.find? (fun p => decide (p.2 = m)) := by
  induction l with
  | nil => intro m hm; simp [listMinQ] at hm
  | cons p t ih =>
    intro m hm
    obtain ⟨k0, v0⟩ := p
    simp only [List.map_cons, listMinQ] at hm
    cases ht : listMinQ (t.map Prod.snd) with
    | none =>
      rw [ht] at hm
      simp at hm
      have htnil : t = [] := List.map_eq_nil_iff.mp ((listMinQ_eq_none _).mp ht)
      subst htnil
      subst hm
      simp [idxminFold, List.find?]
    | some b =>
      rw [ht] at hm
      simp at hm
      have htne : t ≠ [] := by
        intro hnil; subst hnil; simp [listMinQ] at ht
      obtain ⟨p', hp'⟩ : ∃ p', idxminFold t = some p' := by
        cases hh : idxminFold t with
        | none => exact absurd ((idxminFold_eq_none t).mp hh) htne
        | some q => exact ⟨q, rfl⟩
      obtain ⟨k', v'⟩ := p'
      have hb : listMinQ (t.map Prod.snd) = some v' := idxminFold_val t k' v' hp'
      rw [ht] at hb
      simp at hb
      subst hb
      by_cases hle : v0 ≤ b
      · have hm0 : m = v0 := by rw [← hm, min_eq_left hle]
        rw [idxminFold, hp']
        dsimp only
        rw [if_pos hle]
        rw [List.find?_cons_of_pos _ (by simp [hm0])]
      · have hlt := lt_of_not_le hle
        have hm0 : m = b := by rw [← hm, min_eq_right (le_of_lt hlt)]
        rw [idxminFold, hp']
        dsimp only
        rw [if_neg hle]
        rw [List.find?_cons_of_neg _ (by simp [hm0]; exact ne_of_gt hlt)]
        rw [← ih m (by rw [ht, hm0]), hp']

/-- Pandas `idxmax` characterized: when the values have maximum `m`, the fold
returns the *first* entry whose value equals `m`. -/
theorem idxmaxFold_eq_find (l : List (String × ℚ)) :
    ∀ m, listMaxQ (l.map Prod.snd) = some m →
      idxmaxFold l = l.find? (fun p => decide (p.2 = m)) := by
  induction l with
  | nil => intro m hm; simp [listMaxQ] at hm
  | cons p t ih =>
    intro m hm
    obtain ⟨k0, v0⟩ := p
    simp only [List.map_cons, listMaxQ] at hm
    cases ht : listMaxQ (t.map Prod.snd) with
    | none =>
      rw [ht] at hm
      simp at hm
      have htnil : t = [] := List.map_eq_nil_iff.mp ((listMaxQ_eq_none _).mp ht)
      subst htnil
      subst hm
      simp [idxmaxFold, List.find?]
    | some b =>
      rw [ht] at hm
      simp at hm
      have htne : t ≠ [] := by
        intro hnil; subst hnil; simp [listMaxQ] at ht
      obtain ⟨p', hp'⟩ : ∃ p', idxmaxFold t = some p' := by
        cases hh : idxmaxFold t with
        | none => exact absurd ((idxmaxFold_eq_none t).mp hh) htne
        | some q => exact ⟨q, rfl⟩
      obtain ⟨k', v'⟩ := p'
      have hb : listMaxQ (t.map Prod.snd) = some v' := idxmaxFold_val t k' v' hp'
      rw [ht] at hb
      simp at hb
      subst hb
      by_cases hle : b ≤ v0
      · have hm0 : m = v0 := by rw [← hm, max_eq_left hle]
        rw [idxmaxFold, hp']
        dsimp only
        rw [if_pos hle]
        rw [List.find?_cons_of_pos _ (by simp [hm0])]
      · have hlt := lt_of_not_le hle
        have hm0 : m = b := by rw [← hm, max_eq_right (le_of_lt hlt)]
        rw [idxmaxFold, hp']
        dsimp only
        rw [if_neg hle]
        rw [List.find?_cons_of_neg _ (by simp [hm0]; exact ne_of_lt hlt)]
        rw [← ih m (by rw [ht, hm0]), hp']

/-! ## Helper lemmas: counting -/

/-- Deduplication preserves membership. -/
theorem mem_dedupFirst_iff (l : List String) (k : String) :
    k ∈ dedupFirst l ↔ k ∈ l := by
  induction l with
  | nil => simp [dedupFirst]
  | cons a t ih =>
    rw [dedupFirst]
    constructor
    · intro hk
      rcases List.mem_cons.mp hk with h | h
      · simp [h]
      · exact List.mem_cons_of_mem _ (ih.mp (List.mem_of_mem_filter h))
    · intro hk
      rcases List.mem_cons.mp hk with h | h
      · simp [h]
      · by_cases hka : k = a
        · simp [hka]
        · exact List.mem_cons_of_mem _ (List.mem_filter.mpr ⟨ih.mpr h, by simp [hka]⟩)

/-- Deduplication yields a duplicate-free list. -/
theorem dedupFirst_nodup (l : List String) : (dedupFirst l).Nodup := by
  induction l with
  | nil => simp [dedupFirst]
  | cons a t ih =>
    rw [dedupFirst]
    refine List.nodup_cons.mpr ⟨?_, List.Nodup.filter _ ih⟩
    intro hmem
    have := List.of_mem_filter hmem
    simp at this

/-- Summing the multiplicities of the distinct elements recovers the length. -/
theorem dedupFirst_sum_count (l : List String) :
    ((dedupFirst l).map (fun k => l.count k)).sum = l.length := by
  have hnd := dedupFirst_nodup l
  have hfs : (dedupFirst l).toFinset = l.toFinset := by
    ext x
    simp [List.mem_toFinset, mem_dedupFirst_iff]
  rw [← List.sum_toFinset _ hnd, hfs]
  have h := Multiset.toFinset_sum_count_eq (l : Multiset String)
  simp only [Multiset.coe_count, Multiset.coe_card] at h
  exact h

/-- Inserting an entry adds its count to the total. -/
theorem insertByCountDesc_sum (p : String × ℕ) (l : List (String × ℕ)) :
    ((insertByCountDesc p l).map Prod.snd).sum = p.2 + (l.map Prod.snd).sum := by
  induction l with
  | nil => simp [insertByCountDesc]
  | cons q t ih =>
    rw [insertByCountDesc]
    split_ifs
    · simp
    · simp only [List.map_cons, List.sum_cons, ih]
      ring

/-- Sorting by descending count preserves the total of the counts. -/
theorem foldl_insertByCountDesc_sum (base : List (String × ℕ)) :
    ∀ acc : List (String × ℕ),
      ((base.foldl (fun acc p => insertByCountDesc p acc) acc).map Prod.snd).sum
        = (base.map Prod.snd).sum + (acc.map Prod.snd).sum := by
  induction base with
  | nil => intro acc; simp
  | cons p t ih =>
    intro acc
    rw [List.foldl_cons, ih, insertByCountDesc_sum]
    simp only [List.map_cons, List.sum_cons]
    ring

/-- The counts of `value_counts` sum to the length of the key list. -/
theorem value_counts_sum (keys : List String) :
    ((value_counts keys).map Prod.snd).sum = keys.length := by
  rw [value_counts, foldl_insertByCountDesc_sum]
  simp only [List.map_nil, List.sum_nil, add_zero, List.map_map]
  exact dedupFirst_sum_count keys

/-! ## Helper lemmas: nonnegativity of parsed distances -/

/-- Means of nonnegative values are nonnegative. -/
theorem qmean_nonneg (l : List ℚ) (h : ∀ x ∈ l, 0 ≤ x) : 0 ≤ qmean l :=
  div_nonneg (List.sum_nonneg h) (Nat.cast_nonneg _)

/-- A parsed digits-and-dot mantissa is never negative. -/
theorem parseMant_nonneg (cs : List Char) : ∀ q, parseMant cs = some q → 0 ≤ q := by
  intro q hq
  rw [parseMant] at hq
  rcases hsp : splitOnPred (fun c => c == '.') cs with _ | ⟨a, _ | ⟨b, _ | _⟩⟩ <;>
    rw [hsp] at hq <;> dsimp only at hq
  · simp at hq
  · split_ifs at hq with h
    rw [Option.some_inj] at hq
    subst hq
    positivity
  · split_ifs at hq with h
    rw [Option.some_inj] at hq
    subst hq
    positivity
  · simp at hq

/-- Every float produced inside a successful `mapM parseMant` is nonnegative. -/
theorem mapM_parseMant_nonneg (l : List (List Char)) :
    ∀ nums, l.mapM parseMant = some nums → ∀ x ∈ nums, 0 ≤ x := by
  induction l with
  | nil =>
    intro nums h x hx
    rw [List.mapM_nil] at h
    cases nums with
    | nil => simp at hx
    | cons y ys => simp at h
  | cons c t ih =>
    intro nums h x hx
    rw [List.mapM_cons] at h
    cases hc : parseMant c with
    | none => rw [hc] at h; simp at h
    | some v =>
      rw [hc] at h
      cases ht : t.mapM parseMant with
      | none => rw [ht] at h; simp at h
      | some vs =>
        rw [ht] at h
        simp at h
        subst h
        rcases List.mem_cons.mp hx with hxa | hxt
        · subst hxa; exact parseMant_nonneg c x hc
        · exact ih vs ht x hxt

/-- The try-block mean is nonnegative whenever it produces a value. -/
theorem mean_of_parses_nonneg (st : List (List Char)) :
    ∀ q, mean_of_parses st = some q → 0 ≤ q := by
  intro q hq
  rw [mean_of_parses] at hq
  cases hm : st.mapM parseMant with
  | none => rw [hm] at hq; simp at hq
  | some nums =>
    rw [hm] at hq
    dsimp only at hq
    split_ifs at hq with hne
    rw [Option.some_inj] at hq
    subst hq
    exact qmean_nonneg nums (mapM_parseMant_nonneg st nums hm)

/-- Distances produced by `parse_distance` are never negative: the stripped
strings contain no sign, so every parsed part and every mean of parts is
nonnegative. -/
theorem parse_distance_nonneg (d : Option String) :
    ∀ q, parse_distance d = some q → 0 ≤ q := by
  intro q hq
  cases d with
  | none => simp [parse_distance] at hq
  | some s =>
    simp only [parse_distance] at hq
    split_ifs at hq with hd
    · exact mean_of_parses_nonneg _ q hq
    · exact parseMant_nonneg _ q hq

/-- A mean over optional values, all of whose present values are nonnegative,
is nonnegative when defined. -/
theorem group_mean_nonneg (vals : List (Option ℚ))
    (h : ∀ x ∈ vals.filterMap id, 0 ≤ x) :
    ∀ q, group_mean vals = some q → 0 ≤ q := by
  intro q hq
  rw [group_mean] at hq
  split_ifs at hq with he
  rw [Option.some_inj] at hq
  subst hq
  exact qmean_nonneg _ h

/-- Half-even rounding preserves nonnegativity. -/
theorem roundHalfEven_nonneg (q : ℚ) (h : 0 ≤ q) : 0 ≤ roundHalfEven q := by
  rw [roundHalfEven]
  have hf : (0 : ℤ) ≤ ⌊q⌋ := Int.floor_nonneg.mpr h
  split_ifs <;> omega

/-- Two-decimal rounding preserves nonnegativity. -/
theorem round2_nonneg (q : ℚ) (h : 0 ≤ q) : 0 ≤ round2 q := by
  rw [round2]
  apply div_nonneg _ (by norm_num)
  exact_mod_cast roundHalfEven_nonneg (q * 100) (by positivity)

/-! ## Helper lemmas: radar-feature bounds -/

/-- Every element is bounded by the `foldr max 0` of its list. -/
theorem le_foldr_max (l : List ℕ) : ∀ x ∈ l, x ≤ l.foldr max 0 := by
  induction l with
  | nil => simp
  | cons a t ih =>
    intro x hx
    rcases List.mem_cons.mp hx with h | h
    · subst h; exact le_max_left _ _
    · exact le_trans (ih x h) (le_max_right _ _)

/-- The list maximum is attained by a member. -/
theorem listMaxQ_mem (l : List ℚ) : ∀ m, listMaxQ l = some m → m ∈ l := by
  induction l with
  | nil => simp [listMaxQ]
  | cons a t ih =>
    intro m hm
    rw [listMaxQ] at hm
    cases ht : listMaxQ t with
    | none =>
      rw [ht] at hm
      simp at hm
      simp [hm]
    | some b =>
      rw [ht] at hm
      simp at hm
      rcases max_choice a b with hc | hc <;> rw [hc] at hm
      · simp [hm]
      · exact List.mem_cons_of_mem _ (hm ▸ ih b ht)

/-- Every derived `distance_kly` value in an enriched table is nonnegative. -/
theorem enriched_distance_nonneg (raw : List RawRow) :
    ∀ row ∈ load_and_process_data raw, ∀ q, row.distance_kly = some q → 0 ≤ q := by
  intro row hrow q hq
  rw [load_and_process_data] at hrow
  obtain ⟨rr, _, hrr⟩ := List.mem_map.mp hrow
  subst hrr
  dsimp only at hq
  exact parse_distance_nonneg _ q hq

/-- Every rounded mean distance in the summary of an enriched table is
nonnegative. -/
theorem summary_mdist_nonneg (raw : List RawRow) :
    ∀ r ∈ summary (load_and_process_data raw), ∀ q, r.mdist = some q → 0 ≤ q := by
  intro r hr q hq
  rw [summary] at hr
  obtain ⟨k, _, hk⟩ := List.mem_map.mp hr
  subst hk
  dsimp only at hq
  obtain ⟨q0, hq0, hround⟩ := Option.map_eq_some'.mp hq
  subst hround
  apply round2_nonneg
  apply group_mean_nonneg _ _ q0 hq0
  intro x hx
  obtain ⟨o, ho, hox⟩ := List.mem_filterMap.mp hx
  obtain ⟨row, hrow, hrowo⟩ := List.mem_map.mp ho
  have hrowdf : row ∈ load_and_process_data raw := List.mem_of_mem_filter hrow
  exact enriched_distance_nonneg raw row hrowdf x (by rw [hrowo]; exact hox)

/-- Every defined count feature lies in the unit interval. -/
theorem radar_counts_bound (df : List Row) (k : String) (q : ℚ)
    (hmem : (k, some q) ∈ radar_counts df) : 0 ≤ q ∧ q ≤ 1 := by
  simp only [radar_counts] at hmem
  obtain ⟨r, hr, hf⟩ := List.mem_map.mp hmem
  have hp : pdiv (r.cnt : ℚ) (((summary df).map (·.cnt)).foldr max 0 : ℕ) = some q :=
    congrArg Prod.snd hf
  rw [pdiv] at hp
  split_ifs at hp with hz
  rw [Option.some_inj] at hp
  subst hp
  have hle : r.cnt ≤ ((summary df).map (·.cnt)).foldr max 0 :=
    le_foldr_max _ _ (List.mem_map_of_mem (·.cnt) hr)
  have hpos : (0 : ℚ) < (((summary df).map (·.cnt)).foldr max 0 : ℕ) :=
    lt_of_le_of_ne (Nat.cast_nonneg _) (Ne.symm hz)
  constructor
  · exact div_nonneg (Nat.cast_nonneg _) (le_of_lt hpos)
  · rw [div_le_one hpos]
    exact_mod_cast hle

/-- Every defined brightness feature lies in the unit interval. -/
theorem radar_bright_bound (df : List Row) (k : String) (q : ℚ)
    (hmem : (k, some q) ∈ radar_bright df) : 0 ≤ q ∧ q ≤ 1 := by
  simp only [radar_bright] at hmem
  cases hlo : listMinQ (((summary df).map (·.mmag)).filterMap id) with
  | none =>
    rw [hlo] at hmem
    cases hhi : listMaxQ (((summary df).map (·.mmag)).filterMap id) <;> rw [hhi] at hmem <;>
      · obtain ⟨r, _, hf⟩ := List.mem_map.mp hmem
        exact absurd (congrArg Prod.snd hf) (by simp)
  | some lo =>
    rw [hlo] at hmem
    cases hhi : listMaxQ (((summary df).map (·.mmag)).filterMap id) with
    | none =>
      rw [hhi] at hmem
      obtain ⟨r, _, hf⟩ := List.mem_map.mp hmem
      exact absurd (congrArg Prod.snd hf) (by simp)
    | some hi =>
      rw [hhi] at hmem
      obtain ⟨r, hr, hf⟩ := List.mem_map.mp hmem
      have hsnd := congrArg Prod.snd hf
      dsimp only at hsnd
      obtain ⟨m, hm, hgm⟩ := Option.map_eq_some'.mp hsnd
      have hmmem : m ∈ ((summary df).map (·.mmag)).filterMap id :=
        List.mem_filterMap.mpr ⟨r.mmag, List.mem_map_of_mem (·.mmag) hr, by rw [hm]; rfl⟩
      have hlom : lo ≤ m := listMinQ_le _ lo hlo m hmmem
      have hmhi : m ≤ hi := le_listMaxQ _ hi hhi m hmmem
      have hden : (0 : ℚ) < hi - lo + 1 / 100 := by linarith
      subst hgm
      constructor
      · have hfrac : (m - lo) / (hi - lo + 1 / 100) ≤ 1 := by
          rw [div_le_one hden]
          linarith
        linarith
      · have hfrac : 0 ≤ (m - lo) / (hi - lo + 1 / 100) :=
          div_nonneg (by linarith) (le_of_lt hden)
        linarith

/-- Every defined distance feature of an enriched table lies in the unit
interval. -/
theorem radar_dist_bound (raw : List RawRow) (k : String) (q : ℚ)
    (hmem : (k, some q) ∈ radar_dist (load_and_process_data raw)) : 0 ≤ q ∧ q ≤ 1 := by
  simp only [radar_dist] at hmem
  cases hM : listMaxQ (((summary (load_and_process_data raw)).map (·.mdist)).filterMap id) with
  | none =>
    rw [hM] at hmem
    obtain ⟨r, _, hf⟩ := List.mem_map.mp hmem
    exact absurd (congrArg Prod.snd hf) (by simp)
  | some M =>
    rw [hM] at hmem
    obtain ⟨r, hr, hf⟩ := List.mem_map.mp hmem
    have hsnd := congrArg Prod.snd hf
    dsimp only at hsnd
    have hds : ∀ x ∈ ((summary (load_and_process_data raw)).map (·.mdist)).filterMap id,
        0 ≤ x := by
      intro x hx
      obtain ⟨o, ho, hox⟩ := List.mem_filterMap.mp hx
      obtain ⟨r', hr', hro⟩ := List.mem_map.mp ho
      exact summary_mdist_nonneg raw r' hr' x (by rw [hro]; exact hox)
    have hMnn : 0 ≤ M := hds M (listMaxQ_mem _ M hM)
    have hd0 : 0 ≤ r.mdist.getD 0 ∧ r.mdist.getD 0 ≤ M := by
      cases hmd : r.mdist with
      | none => simp [le_of_lt, hMnn]
      | some dm =>
        have hdmem : dm ∈ ((summary (load_and_process_data raw)).map (·.mdist)).filterMap id :=
          List.mem_filterMap.mpr ⟨r.mdist, List.mem_map_of_mem (·.mdist) hr, by rw [hmd]; rfl⟩
        simp only [Option.getD_some]
        exact ⟨hds dm hdmem, le_listMaxQ _ M hM dm hdmem⟩
    rw [pdiv] at hsnd
    have hden : (0 : ℚ) < M + 1 / 100 := by linarith
    split_ifs at hsnd with hz
    rw [Option.some_inj] at hsnd
    subst hsnd
    constructor
    · exact div_nonneg hd0.1 (le_of_lt hden)
    · rw [div_le_one hden]
      linarith [hd0.2]

/-! ## Claim theorems -/

/-- Claim C1 (counterexample): the claim's universal clause — *every* input
containing both "barred spiral" and "spiral galaxy" classifies as
(Galaxy, "barred spiral galaxy") — fails on the code: an input that also
contains an earlier pattern, here "open cluster", is caught by that earlier
rule and classifies as (Cluster, "open cluster") = ("성단", "산개성단"). -/
theorem c1_counterexample :
    pyContains "barred spiral" (pyLower "Open Cluster Barred Spiral Galaxy") = true ∧
    pyContains "spiral galaxy" (pyLower "Open Cluster Barred Spiral Galaxy") = true ∧
    categorize_object (some "Open Cluster Barred Spiral Galaxy") = ("성단", "산개성단") :=
  ⟨by decide, by decide, by decide⟩

/-- Claim C1 (amended): for every `rawObjectType` string the classifier
returns the pair of the first pattern in the fixed ordered table that is a
case-insensitive substring of the input, and ("기타", "기타") (= (Other,
other)) when no pattern matches; and every input containing both "barred
spiral" and "spiral galaxy" *and containing no earlier pattern* ("globular
cluster" or "open cluster") classifies as ("은하", "막대나선은하")
(= (Galaxy, "barred spiral galaxy")), not as ("은하", "나선은하"). -/
theorem c1_classifier_first_match :
    (∀ s, categorize_object (some s) = first_match pattern_table (pyLower s)) ∧
    categorize_object none = ("기타", "기타") ∧
    (∀ s, pyContains "barred spiral" (pyLower s) = true →
      pyContains "spiral galaxy" (pyLower s) = true →
      pyContains "globular cluster" (pyLower s) = false →
      pyContains "open cluster" (pyLower s) = false →
      categorize_object (some s) = ("은하", "막대나선은하")) := by
  refine ⟨categorize_object_eq_first_match, rfl, ?_⟩
  intro s h1 _ h3 h4
  simp only [categorize_object]
  rw [if_neg (by simp [h3]), if_neg (by simp [h4]), if_pos h1]

/-- Claim C1 (witness): the amended statement applied to the spec's own
example "Barred Spiral Galaxy". -/
theorem c1_witness :
    categorize_object (some "Barred Spiral Galaxy") = ("은하", "막대나선은하") :=
  c1_classifier_first_match.2.2 "Barred Spiral Galaxy"
    (by decide) (by decide) (by decide) (by decide)

/-- Claim C2 (counterexample): on a two-row table (one 성단 row, one 은하
row) with 성단 selected in the filter, the app's category tabulation
`cat_counts` still counts both rows — it is computed over the full table,
not over the rows matching the selection. -/
theorem c2_counterexample :
    (app_view exDfTwo "성단").catCounts = [("성단", 1), ("은하", 1)] ∧
    cat_counts (filtered_df exDfTwo "성단") = [("성단", 1)] ∧
    (filtered_df exDfTwo "성단").length = 1 := by
  refine ⟨?_, ?_, ?_⟩ <;> decide

/-- Claim C2 (amended): the sidebar selection restricts only the displayed
raw-data table and the sidebar row count ("All" = "전체" passes the full
table through); the grouped tabulations and chart inputs (`mag_stats`,
`cat_counts`, `summary`) are always computed over the full table, independent
of the selection. -/
theorem c2_filter_scope :
    (∀ df : List Row, (app_view df "전체").raw_table = df) ∧
    (∀ (df : List Row) (sel : String), sel ≠ "전체" →
      (app_view df sel).raw_table = df.filter (fun r => r.category == sel)) ∧
    (∀ (df : List Row) (sel : String),
      (app_view df sel).selected_count = (filtered_df df sel).length) ∧
    (∀ (df : List Row) (sel : String),
      (app_view df sel).magStats = mag_stats df ∧
      (app_view df sel).catCounts = cat_counts df ∧
      (app_view df sel).summaryRows = summary df) := by
  refine ⟨?_, ?_, fun df sel => rfl, fun df sel => ⟨rfl, rfl, rfl⟩⟩
  · intro df
    simp [app_view, filtered_df]
  · intro df sel hsel
    simp [app_view, filtered_df, hsel]

/-- Claim C2 (witness): the amended filter behaviour at the selection 성단
on the concrete two-row table. -/
theorem c2_witness :
    (app_view exDfTwo "성단").raw_table = exDfTwo.filter (fun r => r.category == "성단") :=
  c2_filter_scope.2.1 exDfTwo "성단" (by decide)

/-- Claim C3 (counterexample): on a table whose 성단 (Cluster) group has true
mean magnitude 5.001 and whose 기타 (Other) group has 5.004, the code reports
기타 as the brightest category: the means are first rounded to two decimals
(both become 5.0) and `idxmin` then breaks the tie by the sorted key order
기타 < 성단 < 성운 < 은하, not by the claimed order {Cluster, Galaxy,
Nebula, Other}, which would pick 성단 — as would the unrounded minimum. -/
theorem c3_counterexample :
    group_mean_mag exDfTie "성단" = some (5001/1000) ∧
    group_mean_mag exDfTie "기타" = some (5004/1000) ∧
    brightest_cat exDfTie = some "기타" := by
  refine ⟨?_, ?_, ?_⟩ <;> decide

/-- Claim C3 (amended): for every table with at least one non-absent group
mean, the brightest (dimmest) category is the first group, in ascending
code-point order of the category labels (기타, 성단, 성운, 은하 — i.e.
Other, Cluster, Nebula, Galaxy), whose *two-decimal-rounded* mean magnitude
attains the minimum (maximum) of the rounded means. -/
theorem c3_brightest_first_min :
    ∀ df : List Row,
      (∀ m, listMinQ ((definedStats df).map Prod.snd) = some m →
        brightest_cat df = ((definedStats df).find? (fun p => decide (p.2 = m))).map Prod.fst) ∧
      (∀ m, listMaxQ ((definedStats df).map Prod.snd) = some m →
        dimmest_cat df = ((definedStats df).find? (fun p => decide (p.2 = m))).map Prod.fst) := by
  intro df
  constructor
  · intro m hm
    rw [brightest_cat, idxminFold_eq_find _ m hm]
  · intro m hm
    rw [dimmest_cat, idxmaxFold_eq_find _ m hm]

/-- Claim C3 (witness): on the concrete tie table both rounded means equal 5,
and the brightest and dimmest picks are the first group attaining it. -/
theorem c3_witness :
    brightest_cat exDfTie =
      ((definedStats exDfTie).find? (fun p => decide (p.2 = 5))).map Prod.fst ∧
    dimmest_cat exDfTie =
      ((definedStats exDfTie).find? (fun p => decide (p.2 = 5))).map Prod.fst := by
  constructor
  · exact (c3_brightest_first_min exDfTie).1 5 (by decide)
  · exact (c3_brightest_first_min exDfTie).2 5 (by decide)

/-- Claim C4 (counterexample): on "5-." the dash branch strips the two parts
to "5" and "."; "." is nonempty but fails to parse, the exception aborts the
whole comprehension and the code returns absent — whereas the claim's "mean
of the successfully parsed parts" would give 5.0. -/
theorem c4_counterexample :
    parse_distance (some "5-.") = none ∧ parse_distance_claim (some "5-.") = some 5 := by
  constructor <;> decide

/-- Claim C4 (amended): after removing commas and "~", a dashed string is
split on dashes and each part stripped to digits and dots; parts stripping to
nothing are discarded, and if *every* remaining part parses the result is
their arithmetic mean (so a range with exactly one numeric side yields that
value), while if *any* remaining part fails to parse the whole field is
absent; "7.5–8.2" parses to 7.85, "~2,500" to 2500.0, "~" and "unknown" to
absent. -/
theorem c4_distance_parsing :
    (∀ d, parse_distance d = parse_distance_amended d) ∧
    parse_distance (some "7.5–8.2") = some (157/20) ∧
    parse_distance (some "~2,500") = some 2500 ∧
    parse_distance (some "~") = none ∧
    parse_distance (some "unknown") = none := by
  refine ⟨fun d => rfl, ?_, ?_, ?_, ?_⟩ <;> decide

/-- An input matched by no pattern of the table falls through every branch of
the classifier to the default pair. -/
theorem categorize_object_unmatched (s : String)
    (hs : no_pattern_matches s = true) :
    categorize_object (some s) = ("기타", "기타") := by
  rw [no_pattern_matches] at hs
  have h := List.all_eq_true.mp hs
  have hgc := h "globular cluster" (by decide)
  have hoc := h "open cluster" (by decide)
  have hbs := h "barred spiral" (by decide)
  have hsg := h "spiral galaxy" (by decide)
  have heg := h "elliptical galaxy" (by decide)
  have hde := h "dwarf elliptical" (by decide)
  have hlg := h "lenticular galaxy" (by decide)
  have hst := h "starburst galaxy" (by decide)
  have hpn := h "planetary nebula" (by decide)
  have hh2 := h "h ii region" (by decide)
  have hne := h "nebula" (by decide)
  have hsn := h "supernova" (by decide)
  have hnv := h "nova" (by decide)
  have hdn := h "diffuse nebula" (by decide)
  have has := h "asterism" (by decide)
  have hmw := h "milky way" (by decide)
  have hsc := h "star cloud" (by decide)
  have hdb := h "double" (by decide)
  simp only [Bool.not_eq_true'] at hgc hoc hbs hsg heg hde hlg hst hpn hh2 hne hsn hnv hdn has hmw hsc hdb
  simp only [categorize_object]
  rw [if_neg (by simp [hgc]), if_neg (by simp [hoc]), if_neg (by simp [hbs]),
    if_neg (by simp [hsg]), if_neg (by simp [heg, hde]), if_neg (by simp [hlg]),
    if_neg (by simp [hst]), if_neg (by simp [hpn]), if_neg (by simp [hh2, hne]),
    if_neg (by simp [hsn, hnv]), if_neg (by simp [hdn]), if_neg (by simp [has]),
    if_neg (by simp [hmw, hsc]), if_neg (by simp [hdb])]

/-- Claim C5: classification and field parsing are total and never raise —
the classifier returns ("기타", "기타") (= (Other, Other)) for absent,
empty or unmatched input and always lands in its fixed result set, and
distance/magnitude parsing return an optional value, yielding absent on a
missing cell or unparseable garbage instead of failing. -/
theorem c5_totality :
    categorize_object none = ("기타", "기타") ∧
    categorize_object (some "") = ("기타", "기타") ∧
    (∀ s, no_pattern_matches s = true → categorize_object (some s) = ("기타", "기타")) ∧
    (∀ s, categorize_object (some s) ∈ resultPairs) ∧
    parse_distance none = none ∧
    to_numeric_coerce none = none ∧
    parse_distance (some "garbage!") = none ∧
    to_numeric_coerce (some "bad") = none :=
  ⟨rfl, by decide, categorize_object_unmatched, categorize_object_mem_resultPairs,
   rfl, rfl, by decide, by decide⟩

/-- Claim C5 (witness): the unmatched-input clause applied to the concrete
garbage string "zzz". -/
theorem c5_witness :
    no_pattern_matches "zzz" = true ∧ categorize_object (some "zzz") = ("기타", "기타") :=
  ⟨by decide, c5_totality.2.2.1 "zzz" (by decide)⟩

/-- Claim C6 (counterexample): on a table whose 은하 (Galaxy) group has no
valid magnitude, the normalized brightness feature of 은하 is NaN (absent),
not a value in [0, 1] — NaN propagates through the mean and the normalization
formula. -/
theorem c6_counterexample :
    lookupKey (radar_bright exDfNoMag) "은하" = some none ∧
    lookupKey (radar_bright exDfNoMag) "성단" = some (some 1) := by
  constructor <;> decide

/-- Claim C6 (amended): over every enriched table, each *defined* normalized
radar feature — count / max count, 1 - (mean - min)/(max - min + 0.01) on
rounded mean magnitudes, and fillna(0)-mean-distance / (max + 0.01) — lies in
[0, 1]; a category with no valid magnitudes has an undefined (NaN) brightness
feature, and when no category has a valid mean distance (or every count is
zero) the corresponding features are undefined rather than in range. -/
theorem c6_radar_bounds :
    ∀ raw : List RawRow,
      (∀ k q, (k, some q) ∈ radar_counts (load_and_process_data raw) → 0 ≤ q ∧ q ≤ 1) ∧
      (∀ k q, (k, some q) ∈ radar_bright (load_and_process_data raw) → 0 ≤ q ∧ q ≤ 1) ∧
      (∀ k q, (k, some q) ∈ radar_dist (load_and_process_data raw) → 0 ≤ q ∧ q ≤ 1) :=
  fun raw =>
    ⟨fun k q h => radar_counts_bound _ k q h,
     fun k q h => radar_bright_bound _ k q h,
     fun k q h => radar_dist_bound raw k q h⟩

/-- Claim C6 (witness): the brightness bound applied to the defined 성단
feature of the concrete table (its value is 1). -/
theorem c6_witness : (0 : ℚ) ≤ 1 ∧ (1 : ℚ) ≤ 1 :=
  (c6_radar_bounds exRawNoMag).2.1 "성단" 1 (by decide)

/-- Claim C8: normalization preserves the row count exactly (enrichment is a
per-row map), and for every filter selection the per-category counts of the
grouped `value_counts` output sum to the number of rows matching that
filter. -/
theorem c8_row_count_invariants :
    (∀ raw : List RawRow, (load_and_process_data raw).length = raw.length) ∧
    (∀ (df : List Row) (sel : String),
      ((cat_counts (filtered_df df sel)).map Prod.snd).sum = (filtered_df df sel).length) := by
  constructor
  · intro raw
    exact List.length_map raw _
  · intro df sel
    rw [cat_counts, value_counts_sum, List.length_map]

/-- Claim C9 (counterexample): "1x2x3" is neither of the form "A x B" nor a
single numeric string, so the claim says absent — but the code splits on
every separator and averages the *first two* parts, returning 1.5. -/
theorem c9_counterexample :
    parse_size (some "1x2x3") = some (3/2) ∧ parse_size_claim (some "1x2x3") = none := by
  constructor <;> decide

/-- Claim C9 (amended): a string containing a case-insensitive "x" is split
at every "x"/"X" and parses to the mean of its *first two* parts when both
parse as floats (absent otherwise); a string without a separator parses as a
plain float; anything else is absent; "17x10" parses to 13.5, "12" to 12.0
and "n/a" to absent. -/
theorem c9_size_parsing :
    (∀ s, parse_size s = parse_size_amended s) ∧
    parse_size (some "17x10") = some (27/2) ∧
    parse_size (some "12") = some 12 ∧
    parse_size (some "n/a") = none := by
  refine ⟨fun s => rfl, ?_, ?_, ?_⟩ <;> decide

/-- Claim C10: the classifier never returns the sub-category "산광성운"
("diffuse nebula"): every returned sub-category lies in the 14-label
producible set, which does not contain "산광성운" — any input containing
"diffuse nebula" also contains "nebula" and is caught by the earlier
emission-nebula rule, so the diffuse-nebula branch is unreachable. -/
theorem c10_diffuse_unreachable :
    (∀ o : Option String, (categorize_object o).2 ∈ producibleSubCategories) ∧
    producibleSubCategories.contains "산광성운" = false :=
  ⟨categorize_object_snd_mem, by decide⟩
